import Mathlib

/-!
Verification of the Pasty state/interaction engine (`src/state.js`,
`src/pasty-app.js`, canvas component) against its natural-language
specification.  The JavaScript module state is modelled as an explicit
`AppState` record; each exported function of `state.js` becomes a pure
state-passing Lean function translated line by line from the source.
JavaScript arrays use push/pop at the end; we model the undo/redo stacks
head-first (push = cons, pop = take the head), which is the same stack.
JSON snapshot strings (`JSON.stringify(_layers)`) are modelled as
structural copies of the layer list, since stringify/parse round-trips
these plain records structurally.
-/

namespace Pasty

/-- A layer record, as documented at the top of `state.js`. -/
structure Layer where
  id : String
  name : String
  imageId : String
  x : ℚ
  y : ℚ
  width : ℚ
  height : ℚ
  rotation : ℚ
  opacity : ℚ
  visible : Bool
  locked : Bool
  blendMode : String
  deriving DecidableEq, Repr, Inhabited

/-- The SVG view box `{x, y, w, h}` from `state.js`. -/
structure ViewBox where
  x : ℚ
  y : ℚ
  w : ℚ
  h : ℚ
  deriving DecidableEq, Repr, Inhabited

/-- The whole private module state of `state.js`: `_layers`, `_viewBox`,
`_initialW/_initialH`, `_zoomLevel`, `_selectedLayerId`, `_undoStack`,
`_redoStack`, `_imageCache` (runtime cache) and the IndexedDB contents
(`pasty-db` object store `images`), modelled as association lists. -/
structure AppState where
  layers : List Layer
  viewBox : ViewBox
  initialW : ℚ
  initialH : ℚ
  zoomLevel : ℚ
  selectedLayerId : Option String
  undoStack : List (List Layer)
  redoStack : List (List Layer)
  imageCache : List (String × String)
  imageDB : List (String × String)
  deriving DecidableEq, Repr

-- ---------------------------------------------------------------------------
-- Finite-map helpers modelling JS `Map` / IndexedDB key-value semantics
-- ---------------------------------------------------------------------------

/-- `Map.get` / keyed object-store read. -/
def mapLookup (m : List (String × String)) (k : String) : Option String :=
  (m.find? (fun p => p.1 = k)).map Prod.snd

/-- `Map.set` / keyed `put`: replace the existing entry for `k` in place, or
append a new entry at the end. -/
def mapSet : List (String × String) → String → String → List (String × String)
  | [], k, v => [(k, v)]
  | p :: m, k, v => if p.1 = k then (k, v) :: m else p :: mapSet m k v

/-- `Map.delete` / keyed object-store `delete`: remove the entry for `k`. -/
def mapDelete (m : List (String × String)) (k : String) : List (String × String) :=
  m.filter (fun p => p.1 ≠ k)

/-- The key set of a stored map (`Map.prototype.keys`). -/
def mapKeys (m : List (String × String)) : List String :=
  m.map Prod.fst

-- ---------------------------------------------------------------------------
-- state.js — accessors
-- ---------------------------------------------------------------------------

/-- `getLayers()` (value view): the observable layer list.  Reference-level
sharing behaviour of the returned array is modelled separately in the
`Ref` namespace below. -/
def getLayers (s : AppState) : List Layer :=
  s.layers

/-- `getSelectedLayerId()`. -/
def getSelectedLayerId (s : AppState) : Option String :=
  s.selectedLayerId

/-- `getSelectedLayer()`: `_layers.find((l) => l.id === _selectedLayerId) || null`.
When `_selectedLayerId` is `null` no string id is `===` to it, so the
result is `null`. -/
def getSelectedLayer (s : AppState) : Option Layer :=
  match s.selectedLayerId with
  | none => none
  | some sid => s.layers.find? (fun l => l.id = sid)

/-- `getViewBox()` (returns a copy; value semantics). -/
def getViewBox (s : AppState) : ViewBox :=
  s.viewBox

/-- `getZoomLevel()`. -/
def getZoomLevel (s : AppState) : ℚ :=
  s.zoomLevel

-- ---------------------------------------------------------------------------
-- state.js — mutators
-- ---------------------------------------------------------------------------

/-- `selectLayer(id)`. -/
def selectLayer (id : String) (s : AppState) : AppState :=
  { s with selectedLayerId := some id }

/-- `setViewBox(vb)`: `_viewBox = {...vb}; _zoomLevel = _initialW / _viewBox.w`. -/
def setViewBox (vb : ViewBox) (s : AppState) : AppState :=
  { s with viewBox := vb, zoomLevel := s.initialW / vb.w }

/-- `setZoom(level)`. -/
def setZoom (level : ℚ) (s : AppState) : AppState :=
  { s with zoomLevel := level }

/-- Apply `f` to the first layer satisfying `p`, leaving the rest unchanged.
This is what `_layers.find(...)` followed by `Object.assign(layer, props)`
does to the list. -/
def applyToFirst (p : Layer → Bool) (f : Layer → Layer) : List Layer → List Layer
  | [] => []
  | l :: ls => if p l then f l :: ls else l :: applyToFirst p f ls

/-- `updateLayer(id, propsObj)`: shallow-merge `props` into the first layer
with this id; silent no-op when the id is absent.  The merge
`Object.assign(layer, propsObj)` is modelled by the field update `props`. -/
def updateLayer (id : String) (props : Layer → Layer) (s : AppState) : AppState :=
  if s.layers.any (fun l => l.id = id) then
    { s with layers := applyToFirst (fun l => l.id = id) props s.layers }
  else s

/-- Index of the first layer satisfying `p` together with that layer
(`Array.prototype.findIndex` plus the element found at that index). -/
def findWithIdx (p : Layer → Bool) : List Layer → Option (ℕ × Layer)
  | [] => none
  | l :: ls =>
    if p l then some (0, l)
    else (findWithIdx p ls).map (fun il => (il.1 + 1, il.2))

/-- `removeLayer(id)`: splice the layer out; if it was selected, select the
layer now at `min(idx, length - 1)` or `null` when the list became empty. -/
def removeLayer (id : String) (s : AppState) : AppState :=
  match findWithIdx (fun l => l.id = id) s.layers with
  | none => s
  | some (idx, _) =>
    let layers := s.layers.eraseIdx idx
    let sel : Option String :=
      if s.selectedLayerId = some id then
        if layers.length = 0 then none
        else (layers.get? (min idx (layers.length - 1))).map (fun l => l.id)
      else s.selectedLayerId
    { s with layers := layers, selectedLayerId := sel }

/-- `reorderLayer(id, newIndex)`: splice the layer out, clamp the target
index to `[0, length]` (length after removal), reinsert there.  The JS
`newIndex` is an arbitrary number, modelled as an integer. -/
def reorderLayer (id : String) (newIndex : ℤ) (s : AppState) : AppState :=
  match findWithIdx (fun l => l.id = id) s.layers with
  | none => s
  | some (oldIndex, layer) =>
    let rest := s.layers.eraseIdx oldIndex
    let clampedIndex : ℕ := (max 0 (min newIndex (rest.length : ℤ))).toNat
    { s with layers := rest.insertIdx clampedIndex layer }

-- ---------------------------------------------------------------------------
-- state.js — undo / redo
-- ---------------------------------------------------------------------------

/-- `pushUndo()`: `_undoStack.push(JSON.stringify(_layers)); _redoStack = []`. -/
def pushUndo (s : AppState) : AppState :=
  { s with undoStack := s.layers :: s.undoStack, redoStack := [] }

/-- `undo()`: no-op on an empty stack; otherwise push the current layers to
the redo stack, pop the top undo snapshot and install it as the layers. -/
def undo (s : AppState) : AppState :=
  match s.undoStack with
  | [] => s
  | top :: rest =>
    { s with redoStack := s.layers :: s.redoStack, undoStack := rest, layers := top }

/-- `redo()`: symmetric to `undo`, using the redo stack. -/
def redo (s : AppState) : AppState :=
  match s.redoStack with
  | [] => s
  | top :: rest =>
    { s with undoStack := s.layers :: s.undoStack, redoStack := rest, layers := top }

/-- An arbitrary mutation of the layer list (stands for any sequence of
in-place edits of `_layers` between a checkpoint and the next history
operation; snapshots on the stacks are unaffected because they are
serialized copies). -/
def mutateLayers (f : List Layer → List Layer) (s : AppState) : AppState :=
  { s with layers := f s.layers }

-- ---------------------------------------------------------------------------
-- state.js — image content store (IndexedDB + runtime cache)
-- ---------------------------------------------------------------------------

/-- `storeImage(imageId, base64DataUrl)`, synchronous phase: the very first
statement `_imageCache.set(imageId, base64DataUrl)` runs before the first
`await`, so the cache is updated before the durable IndexedDB write begins. -/
def storeImageCachePhase (imageId payload : String) (s : AppState) : AppState :=
  { s with imageCache := mapSet s.imageCache imageId payload }

/-- The durable IndexedDB `put` that `storeImage` performs after the cache
update (the part that is still in flight right after the cache phase). -/
def storeImageDurablePhase (imageId payload : String) (s : AppState) : AppState :=
  { s with imageDB := mapSet s.imageDB imageId payload }

/-- `storeImage` run to completion: cache update, then durable write. -/
def storeImage (imageId payload : String) (s : AppState) : AppState :=
  storeImageDurablePhase imageId payload (storeImageCachePhase imageId payload s)

/-- `getImageSync(imageId)`: `_imageCache.get(imageId) || ''` — the cached
value, or the empty string on a miss (a cached empty string also yields
the empty string, which is that same value). -/
def getImageSync (imageId : String) (s : AppState) : String :=
  (mapLookup s.imageCache imageId).getD ""

/-- `getAllImages()`: enumerate the IndexedDB store (cache-bypassing). -/
def getAllImages (s : AppState) : List (String × String) :=
  s.imageDB

/-- `deleteImage(imageId)`: delete from the runtime cache and from
IndexedDB. -/
def deleteImage (imageId : String) (s : AppState) : AppState :=
  { s with imageCache := mapDelete s.imageCache imageId,
           imageDB := mapDelete s.imageDB imageId }

/-- The imageIds gathered by `collectGarbageImages`: for every layer of the
current list and of every undo/redo snapshot, `if (layer.imageId)
referenced.add(layer.imageId)` — the truthiness guard admits exactly the
non-empty ids. -/
def referencedIds (s : AppState) : List String :=
  (s.layers ++ s.undoStack.flatten ++ s.redoStack.flatten).filterMap
    (fun l => if l.imageId ≠ "" then some l.imageId else none)

/-- `collectGarbageImages()`: build the referenced-id set, snapshot all
stored keys, then delete every stored key not in the referenced set. -/
def collectGarbageImages (s : AppState) : AppState :=
  let referenced := referencedIds s
  (mapKeys (getAllImages s)).foldl
    (fun t imageId =>
      if referenced.contains imageId then t else deleteImage imageId t) s

-- ---------------------------------------------------------------------------
-- state.js — project import
-- ---------------------------------------------------------------------------

/-- A layer record of the interchange document: a layer possibly carrying an
inlined `imageData` payload. -/
structure ImportLayer where
  layer : Layer
  imageData : Option String
  deriving DecidableEq, Repr

/-- The parsed project interchange document.  `version = none` models a
missing `version` field (and `some 0` a present but falsy one);
`layers = none` models a `layers` field that is absent or not an array. -/
structure ImportDoc where
  version : Option ℤ
  layers : Option (List ImportLayer)
  viewBox : Option ViewBox
  selectedLayerId : Option String
  deriving DecidableEq, Repr

/-- One iteration of the `importProject` layer loop: when `layer.imageData`
is truthy, store the payload under the layer's imageId and strip the field;
then push the layer. -/
def importLayerStep (t : AppState) (il : ImportLayer) : AppState :=
  let t1 := match il.imageData with
    | some d => if d ≠ "" then storeImage il.layer.imageId d t else t
    | none => t
  { t1 with layers := t1.layers ++ [il.layer] }

/-- `importProject(jsonObj)`: the guard
`!jsonObj || !jsonObj.version || !Array.isArray(jsonObj.layers)` throws
before any mutation, so on the error path the returned state is the input
state, paired with the thrown message.  On success: clear layers and both
stacks, run the layer loop, restore viewBox and selection with their
`||`-defaults, and report no error (`saveState`/`dispatch` touch no
modelled field). -/
def importProject (doc : ImportDoc) (s : AppState) : AppState × Option String :=
  match doc.layers with
  | none => (s, some "Invalid project file: must have version and layers array")
  | some ils =>
    if doc.version.getD 0 = 0 then
      (s, some "Invalid project file: must have version and layers array")
    else
      let s1 := { s with layers := [], undoStack := [], redoStack := [] }
      let s2 := ils.foldl importLayerStep s1
      let s3 := { s2 with
        viewBox := doc.viewBox.getD ⟨0, 0, 800, 600⟩,
        selectedLayerId := match doc.selectedLayerId with
          | some sid => if sid = "" then none else some sid
          | none => none }
      (s3, none)

-- ---------------------------------------------------------------------------
-- pasty-canvas — coordinate mapping, wheel zoom, drag gesture
-- ---------------------------------------------------------------------------

/-- The canvas bounding client rectangle (`getBoundingClientRect()`). -/
structure Rect where
  left : ℚ
  top : ℚ
  width : ℚ
  height : ℚ
  deriving DecidableEq, Repr

/-- `_clientToSvg(clientX, clientY)`: screen point to plane point through
the current view box. -/
def clientToSvg (rect : Rect) (clientX clientY : ℚ) (s : AppState) : ℚ × ℚ :=
  let vb := getViewBox s
  (vb.x + ((clientX - rect.left) / rect.width) * vb.w,
   vb.y + ((clientY - rect.top) / rect.height) * vb.h)

/-- A wheel event as the handler sees it: the sign of `deltaY`, the client
coordinates, and the bounding rectangle at event time. -/
structure WheelInput where
  deltaYPos : Bool
  clientX : ℚ
  clientY : ℚ
  rect : Rect
  deriving DecidableEq, Repr

/-- `_onWheel(e)`: capture the plane point under the cursor, scale the width
by 1.1 (zoom out) or 0.9 (zoom in), clamp it to
`[initialWidth/10, initialWidth*10]`, recompute the origin so the cursor
point stays fixed, scale the height by the same ratio, and set the zoom
level from the clamped width. -/
def onWheel (ev : WheelInput) (s : AppState) : AppState :=
  let vb := getViewBox s
  let cursorX := vb.x + ((ev.clientX - ev.rect.left) / ev.rect.width) * vb.w
  let cursorY := vb.y + ((ev.clientY - ev.rect.top) / ev.rect.height) * vb.h
  let factor : ℚ := if ev.deltaYPos then 11/10 else 9/10
  let newW0 := vb.w * factor
  let initW := s.initialW
  let minW := initW / 10
  let maxW := initW * 10
  let newW := max minW (min maxW newW0)
  let scale := newW / vb.w
  let newX := cursorX - (cursorX - vb.x) * scale
  let newY := cursorY - (cursorY - vb.y) * scale
  let s1 := setViewBox ⟨newX, newY, newW, vb.h * (newW / vb.w)⟩ s
  setZoom (s.initialW / newW) s1

/-- A sequence of wheel events applied in order. -/
def runWheel (evs : List WheelInput) (s : AppState) : AppState :=
  evs.foldl (fun t ev => onWheel ev t) s

/-- The drag-gesture fields of the canvas component: `_dragLayerId`,
`_dragStartX/Y` (plane coordinates) and `_layerStartX/Y`. -/
structure Engine where
  dragLayerId : Option String
  dragStartX : ℚ
  dragStartY : ℚ
  layerStartX : ℚ
  layerStartY : ℚ
  deriving DecidableEq, Repr

/-- The engine at rest (constructor state). -/
def engineIdle : Engine :=
  { dragLayerId := none, dragStartX := 0, dragStartY := 0,
    layerStartX := 0, layerStartY := 0 }

/-- `_onMouseDown` in the normal-drag branch (no space pan, no Alt
transform): the hit-tested target layer is looked up; a locked — or, in
the source, missing — target aborts; otherwise the layer is selected and
the gesture start is captured. -/
def onMouseDownDrag (rect : Rect) (clientX clientY : ℚ) (layerId : String)
    (es : Engine × AppState) : Engine × AppState :=
  let (e, s) := es
  match (getLayers s).find? (fun l => l.id = layerId) with
  | none => (e, s)
  | some layer =>
    if layer.locked then (e, s)
    else
      let s1 := selectLayer layerId s
      let pt := clientToSvg rect clientX clientY s1
      ({ e with
          dragLayerId := some layerId
          dragStartX := pt.1
          dragStartY := pt.2
          layerStartX := layer.x
          layerStartY := layer.y }, s1)

/-- `_onMouseMove` in the normal-drag branch:
`updateLayer(dragId, {x: layerStartX + dx, y: layerStartY + dy})`. -/
def onMouseMoveDrag (rect : Rect) (clientX clientY : ℚ)
    (es : Engine × AppState) : Engine × AppState :=
  let (e, s) := es
  match e.dragLayerId with
  | none => (e, s)
  | some dragId =>
    let pt := clientToSvg rect clientX clientY s
    let dx := pt.1 - e.dragStartX
    let dy := pt.2 - e.dragStartY
    (e, updateLayer dragId
      (fun l => { l with x := e.layerStartX + dx, y := e.layerStartY + dy }) s)

/-- `_onMouseUp` for an active normal drag: `pushUndo(); saveState();
this._dragLayerId = null` — the undo checkpoint is pushed at gesture end,
after the drag's `updateLayer` mutations have already been applied.
(`saveState` writes localStorage only and touches no modelled field;
`_onTouchEnd` runs the same `pushUndo(); saveState()` sequence.) -/
def onMouseUpDrag (es : Engine × AppState) : Engine × AppState :=
  let (e, s) := es
  match e.dragLayerId with
  | none => (e, s)
  | some _ => ({ e with dragLayerId := none }, pushUndo s)

/-- A complete one-move drag gesture, exactly as the three handlers run:
mouse-down on the target layer, one mouse move, mouse-up. -/
def dragGesture (rect : Rect) (downX downY moveX moveY : ℚ) (layerId : String)
    (s : AppState) : Engine × AppState :=
  onMouseUpDrag (onMouseMoveDrag rect moveX moveY
    (onMouseDownDrag rect downX downY layerId (engineIdle, s)))

-- ---------------------------------------------------------------------------
-- Concrete states reused by witnesses
-- ---------------------------------------------------------------------------

/-- A concrete 800×600 canvas rectangle at the origin. -/
def rect0 : Rect :=
  { left := 0, top := 0, width := 800, height := 600 }

/-- A concrete layer used in witnesses. -/
def layerA : Layer :=
  { id := "a", name := "Layer 1", imageId := "img1", x := 0, y := 0,
    width := 100, height := 50, rotation := 0, opacity := 1,
    visible := true, locked := false, blendMode := "normal" }

/-- A concrete base state: one unlocked selected layer, empty history. -/
def state0 : AppState :=
  { layers := [layerA], viewBox := ⟨0, 0, 800, 600⟩, initialW := 800,
    initialH := 600, zoomLevel := 1, selectedLayerId := some "a",
    undoStack := [], redoStack := [], imageCache := [], imageDB := [] }

/-- A state with non-empty undo and redo stacks whose top undo snapshot is
empty (in particular it lacks the selected id `"a"`). -/
def stateH : AppState :=
  { state0 with undoStack := [[]], redoStack := [[layerA]] }

/-- A concrete wheel-out event with the cursor at the canvas center. -/
def wheelOut : WheelInput :=
  { deltaYPos := true, clientX := 400, clientY := 300, rect := rect0 }

/-- The state after a concrete drag gesture on `state0`: mouse-down on layer
`"a"` at client (0,0), mouse move to (5,0) — a plane delta of (5,0) — then
mouse-up. -/
def dragResult : AppState :=
  (dragGesture rect0 0 0 5 0 "a" state0).2

/-- Layer `"a"` after the concrete drag: moved to x = 5. -/
def layerA5 : Layer := { layerA with x := 5 }

/-- The specification's notion of a referenced image id: carried by some
current layer, by some layer of some undo snapshot, or by some layer of
some redo snapshot. -/
def specReferenced (s : AppState) (id : String) : Prop :=
  (∃ l ∈ s.layers, l.imageId = id)
    ∨ (∃ snap ∈ s.undoStack, ∃ l ∈ snap, l.imageId = id)
    ∨ (∃ snap ∈ s.redoStack, ∃ l ∈ snap, l.imageId = id)

/-- A layer whose `imageId` is the empty string (a falsy value for the
truthiness guard of `collectGarbageImages`). -/
def layerEmptyImg : Layer :=
  { layerA with id := "e", imageId := "" }

/-- State for the C3 counterexample: a layer referencing imageId `""` and a
stored image under key `""`. -/
def stateGC : AppState :=
  { state0 with
      layers := [layerEmptyImg]
      selectedLayerId := none
      imageCache := [("", "payload")]
      imageDB := [("", "payload")] }

/-- State for the C3 witness: layer `"a"` references `"img1"`; the store
holds `"img1"` and the orphan `"img2"`. -/
def stateDB : AppState :=
  { state0 with imageDB := [("img1", "d1"), ("img2", "d2")] }

namespace Ref

/-- Object-identity model of the read accessors: the layer objects live in
a heap addressed by position, `_layers` is an array of references into it,
and field assignment on a returned object writes through its reference.
This captures what the value-level model cannot: `[..._layers]` copies the
array but shares the layer objects, and `_layers.find(...)` returns the
live object itself. -/
structure RefState where
  heap : List Layer
  addrs : List ℕ
  selectedLayerId : Option String
  deriving DecidableEq, Repr

/-- Dereference a layer object. -/
def readLayer (s : RefState) (a : ℕ) : Layer :=
  s.heap.getD a default

/-- `getLayers()` = `[..._layers]`: a fresh array holding the same object
references — a shallow copy. -/
def getLayers (s : RefState) : List ℕ :=
  s.addrs

/-- `getSelectedLayer()`: the reference produced by `_layers.find(...)` —
the live layer object, not a copy. -/
def getSelectedLayer (s : RefState) : Option ℕ :=
  match s.selectedLayerId with
  | none => none
  | some sid => s.addrs.find? (fun a => (readLayer s a).id = sid)

/-- Mutating a field of a returned layer object, through its reference. -/
def writeThrough (a : ℕ) (f : Layer → Layer) (s : RefState) : RefState :=
  { s with heap := s.heap.set a (f (s.heap.getD a default)) }

/-- The layer list observed by a subsequent read of the store. -/
def observedLayers (s : RefState) : List Layer :=
  s.addrs.map (readLayer s)

end Ref

/-- A concrete reference-model state: one layer object, selected. -/
def refState0 : Ref.RefState :=
  { heap := [layerA], addrs := [0], selectedLayerId := some "a" }

-- ---------------------------------------------------------------------------
-- C2: checkpoint + mutation, then undo/redo round-trip
-- ---------------------------------------------------------------------------

/-- Claim C2: for every layer-list state, a `pushUndo` checkpoint followed by
any mutation of the layer list, then `undo()` followed by `redo()`, leaves
the layer list structurally equal to the post-mutation list; and `undo()`
called on an empty undo stack changes nothing. -/
theorem C2_undo_redo_roundtrip (s : AppState) (f : List Layer → List Layer) :
    (redo (undo (mutateLayers f (pushUndo s)))).layers
        = (mutateLayers f (pushUndo s)).layers
      ∧ (∀ t : AppState, t.undoStack = [] → undo t = t) := by
  constructor
  · simp [pushUndo, mutateLayers, undo, redo]
  · intro t ht
    unfold undo
    rw [ht]

/-- Witness for C2 at a concrete state: the round-trip equation and the
empty-stack no-op, both discharged at `state0`. -/
theorem C2_undo_redo_roundtrip_witness :
    (redo (undo (mutateLayers (fun _ => []) (pushUndo state0)))).layers
        = (mutateLayers (fun _ => []) (pushUndo state0)).layers
      ∧ undo state0 = state0 :=
  ⟨(C2_undo_redo_roundtrip state0 (fun _ => [])).1,
   (C2_undo_redo_roundtrip state0 (fun _ => [])).2 state0 rfl⟩

-- ---------------------------------------------------------------------------
-- Map lemmas
-- ---------------------------------------------------------------------------

/-- Reading back the key just written by `mapSet` yields the written value. -/
theorem mapLookup_mapSet_self (m : List (String × String)) (k v : String) :
    mapLookup (mapSet m k v) k = some v := by
  induction m with
  | nil => simp [mapLookup, mapSet]
  | cons p m ih =>
    by_cases h : p.1 = k
    · simp [mapLookup, mapSet, h]
    · simpa [mapLookup, mapSet, h] using ih

-- ---------------------------------------------------------------------------
-- C9: cache is updated synchronously before the durable write begins
-- ---------------------------------------------------------------------------

/-- Claim C9: for every imageId and payload, `storeImage` updates the
in-memory cache synchronously before the durable write begins: right after
the synchronous cache phase — while the IndexedDB write is still in flight —
a `getImageSync` read already returns the new payload, and the durable
store is still untouched. -/
theorem C9_storeImage_cache_first (imageId payload : String) (s : AppState) :
    getImageSync imageId (storeImageCachePhase imageId payload s) = payload
      ∧ (storeImageCachePhase imageId payload s).imageDB = s.imageDB
      ∧ storeImage imageId payload s
          = storeImageDurablePhase imageId payload (storeImageCachePhase imageId payload s) := by
  refine ⟨?_, rfl, rfl⟩
  simp [getImageSync, storeImageCachePhase, mapLookup_mapSet_self]

-- ---------------------------------------------------------------------------
-- C4: malformed import documents are rejected with zero mutation
-- ---------------------------------------------------------------------------

/-- Claim C4: for every input document whose version field is missing or
whose layers field is not a list, `importProject` rejects it with the
descriptive validation error and returns the live state completely
unchanged (layers, undo stack, redo stack, viewbox, selection and image
store included). -/
theorem C4_import_rejects_malformed (doc : ImportDoc) (s : AppState)
    (h : doc.version = none ∨ doc.layers = none) :
    importProject doc s
      = (s, some "Invalid project file: must have version and layers array") := by
  rcases h with h | h
  · unfold importProject
    cases hl : doc.layers with
    | none => rfl
    | some ils => simp [h]
  · unfold importProject
    rw [h]

/-- Witness for C4: a concrete document with a missing version field is
rejected and `state0` is returned untouched. -/
theorem C4_import_rejects_malformed_witness :
    importProject ⟨none, some [], none, none⟩ state0
      = (state0, some "Invalid project file: must have version and layers array") :=
  C4_import_rejects_malformed ⟨none, some [], none, none⟩ state0 (Or.inl rfl)

-- ---------------------------------------------------------------------------
-- C10: undo/redo replace only the layer list
-- ---------------------------------------------------------------------------

/-- Claim C10: `undo()`/`redo()` replace only the layer list: with a
non-empty respective stack the selected layer id and the viewbox are
unchanged; and when the restored list contains no layer with the selected
id, `getSelectedLayer()` returns none while `getSelectedLayerId()` keeps
the same non-null id. -/
theorem C10_undo_redo_replace_only_layers (s : AppState) :
    (s.undoStack ≠ [] →
        (undo s).selectedLayerId = s.selectedLayerId ∧ (undo s).viewBox = s.viewBox)
      ∧ (s.redoStack ≠ [] →
        (redo s).selectedLayerId = s.selectedLayerId ∧ (redo s).viewBox = s.viewBox)
      ∧ (∀ sid, s.selectedLayerId = some sid →
          (∀ l ∈ (undo s).layers, l.id ≠ sid) →
          getSelectedLayer (undo s) = none
            ∧ getSelectedLayerId (undo s) = some sid) := by
  have hsel : (undo s).selectedLayerId = s.selectedLayerId := by
    unfold undo; cases s.undoStack <;> rfl
  have hvb : (undo s).viewBox = s.viewBox := by
    unfold undo; cases s.undoStack <;> rfl
  have hselr : (redo s).selectedLayerId = s.selectedLayerId := by
    unfold redo; cases s.redoStack <;> rfl
  have hvbr : (redo s).viewBox = s.viewBox := by
    unfold redo; cases s.redoStack <;> rfl
  refine ⟨fun _ => ⟨hsel, hvb⟩, fun _ => ⟨hselr, hvbr⟩, ?_⟩
  intro sid hs hnone
  refine ⟨?_, by rw [getSelectedLayerId, hsel, hs]⟩
  simp only [getSelectedLayer, hsel, hs]
  rw [List.find?_eq_none]
  intro l hl
  simpa using hnone l hl

/-- Witness for C10 at `stateH`: both frame conditions and the
dangling-selection behaviour after `undo()`. -/
theorem C10_undo_redo_replace_only_layers_witness :
    ((undo stateH).selectedLayerId = stateH.selectedLayerId
        ∧ (undo stateH).viewBox = stateH.viewBox)
      ∧ ((redo stateH).selectedLayerId = stateH.selectedLayerId
        ∧ (redo stateH).viewBox = stateH.viewBox)
      ∧ (getSelectedLayer (undo stateH) = none
        ∧ getSelectedLayerId (undo stateH) = some "a") := by
  have h := C10_undo_redo_replace_only_layers stateH
  refine ⟨h.1 (by simp [stateH]), h.2.1 (by simp [stateH]), h.2.2 "a" rfl ?_⟩
  intro l hl
  have hempty : (undo stateH).layers = [] := rfl
  rw [hempty] at hl
  simp at hl

-- ---------------------------------------------------------------------------
-- findWithIdx soundness
-- ---------------------------------------------------------------------------

/-- A `findWithIdx` hit is an in-range index whose element satisfies the
predicate. -/
theorem findWithIdx_some {p : Layer → Bool} {ls : List Layer} {idx : ℕ} {l : Layer}
    (h : findWithIdx p ls = some (idx, l)) :
    idx < ls.length ∧ ls[idx]? = some l ∧ p l = true := by
  induction ls generalizing idx with
  | nil => simp [findWithIdx] at h
  | cons a as ih =>
    rw [findWithIdx] at h
    by_cases hp : p a
    · rw [if_pos hp] at h
      simp only [Option.some.injEq, Prod.mk.injEq] at h
      obtain ⟨h0, h1⟩ := h
      subst h0
      subst h1
      exact ⟨Nat.succ_pos _, by simp, hp⟩
    · rw [if_neg hp] at h
      rw [Option.map_eq_some'] at h
      obtain ⟨⟨i, x⟩, hfa, hx⟩ := h
      simp only [Prod.mk.injEq] at hx
      obtain ⟨hi, hl⟩ := hx
      subst hi
      subst hl
      obtain ⟨h1, h2, h3⟩ := ih hfa
      exact ⟨Nat.succ_lt_succ h1, by simpa using h2, h3⟩

-- ---------------------------------------------------------------------------
-- C6: removeLayer selection behaviour
-- ---------------------------------------------------------------------------

/-- Claim C6: removing the currently selected layer moves the selection to
the layer now occupying the removed index, clamped to the new last index;
selection becomes none exactly when the list becomes empty, and otherwise
points at an existing layer of the new list. -/
theorem C6_removeLayer_selection (s : AppState) (id : String) (idx : ℕ) (l : Layer)
    (hfind : findWithIdx (fun x => x.id = id) s.layers = some (idx, l))
    (hsel : s.selectedLayerId = some id) :
    (removeLayer id s).layers = s.layers.eraseIdx idx
      ∧ ((removeLayer id s).layers.length = 0 →
          (removeLayer id s).selectedLayerId = none)
      ∧ ((removeLayer id s).layers.length ≠ 0 →
          ∃ sel : Layer,
            (removeLayer id s).layers[min idx ((removeLayer id s).layers.length - 1)]?
                = some sel
              ∧ (removeLayer id s).selectedLayerId = some sel.id
              ∧ sel ∈ (removeLayer id s).layers) := by
  have hres : removeLayer id s =
      { s with layers := s.layers.eraseIdx idx,
               selectedLayerId :=
                 if (s.layers.eraseIdx idx).length = 0 then none
                 else ((s.layers.eraseIdx idx)[min idx ((s.layers.eraseIdx idx).length - 1)]?).map
                        (fun x => x.id) } := by
    unfold removeLayer
    rw [hfind]
    simp [hsel]
  rw [hres]
  refine ⟨rfl, ?_, ?_⟩
  · intro h0
    simp only at h0 ⊢
    simp [h0]
  · intro h0
    simp only at h0 ⊢
    rw [if_neg h0]
    cases hget : (s.layers.eraseIdx idx)[min idx ((s.layers.eraseIdx idx).length - 1)]? with
    | none =>
      exfalso
      rw [List.getElem?_eq_none_iff] at hget
      have h1 : min idx ((s.layers.eraseIdx idx).length - 1)
          ≤ (s.layers.eraseIdx idx).length - 1 := min_le_right _ _
      have hpos : 0 < (s.layers.eraseIdx idx).length := Nat.pos_of_ne_zero h0
      omega
    | some sel =>
      exact ⟨sel, rfl, rfl, List.mem_iff_getElem?.mpr ⟨_, hget⟩⟩

/-- Witness for C6: removing the selected single layer of `state0` leaves an
empty list and clears the selection. -/
theorem C6_removeLayer_selection_witness :
    findWithIdx (fun x => x.id = "a") state0.layers = some (0, layerA)
      ∧ state0.selectedLayerId = some "a"
      ∧ ((removeLayer "a" state0).layers.length = 0 →
          (removeLayer "a" state0).selectedLayerId = none) :=
  ⟨by decide, rfl,
   (C6_removeLayer_selection state0 "a" 0 layerA (by decide) rfl).2.1⟩

-- ---------------------------------------------------------------------------
-- C7: reorderLayer clamping and order preservation
-- ---------------------------------------------------------------------------

/-- Claim C7: for every layer list containing `id` and every integer target
index (negative or beyond the length included), `reorderLayer` keeps the
list length, places the moved layer itself at the target index clamped to
`[0, length]` with the length computed after removal — a valid index of
the resulting list — and preserves the relative order of all other layers
(erasing the moved layer from the result gives exactly the original list
with the layer removed). -/
theorem C7_reorderLayer_valid (s : AppState) (id : String) (n : ℤ)
    (oldIndex : ℕ) (layer : Layer)
    (hfind : findWithIdx (fun x => x.id = id) s.layers = some (oldIndex, layer)) :
    (reorderLayer id n s).layers.length = s.layers.length
      ∧ (max 0 (min n ((s.layers.eraseIdx oldIndex).length : ℤ))).toNat
          < (reorderLayer id n s).layers.length
      ∧ (reorderLayer id n s).layers[(max 0 (min n ((s.layers.eraseIdx oldIndex).length : ℤ))).toNat]?
          = some layer
      ∧ (reorderLayer id n s).layers.eraseIdx
            (max 0 (min n ((s.layers.eraseIdx oldIndex).length : ℤ))).toNat
          = s.layers.eraseIdx oldIndex := by
  obtain ⟨hlt, hget, hp⟩ := findWithIdx_some hfind
  have hres : (reorderLayer id n s).layers
      = (s.layers.eraseIdx oldIndex).insertIdx
          (max 0 (min n ((s.layers.eraseIdx oldIndex).length : ℤ))).toNat layer := by
    unfold reorderLayer
    rw [hfind]
  set rest := s.layers.eraseIdx oldIndex with hrest
  set c := (max 0 (min n (rest.length : ℤ))).toNat with hc
  have hcle : c ≤ rest.length := by
    rw [hc, Int.toNat_le]
    exact max_le (Int.natCast_nonneg _) (min_le_right _ _)
  have hlen1 : rest.length + 1 = s.layers.length := by
    rw [hrest, List.length_eraseIdx_of_lt hlt]
    omega
  have hlenins : (rest.insertIdx c layer).length = rest.length + 1 :=
    List.length_insertIdx c rest hcle
  refine ⟨by rw [hres, hlenins, hlen1], ?_, ?_, ?_⟩
  · rw [hres, hlenins]
    omega
  · rw [hres]
    have hcl : c < (rest.insertIdx c layer).length := by
      rw [hlenins]; omega
    rw [List.getElem?_eq_getElem hcl]
    rw [List.getElem_insertIdx_self rest layer c hcle]
  · rw [hres, List.eraseIdx_insertIdx]

/-- Witness for C7: moving the only layer of `state0` to index `-5` keeps the
list length (the clamp lands on index 0). -/
theorem C7_reorderLayer_valid_witness :
    findWithIdx (fun x => x.id = "a") state0.layers = some (0, layerA)
      ∧ (reorderLayer "a" (-5) state0).layers.length = state0.layers.length :=
  ⟨by decide, (C7_reorderLayer_valid state0 "a" (-5) 0 layerA (by decide)).1⟩

-- ---------------------------------------------------------------------------
-- C8: wheel-zoom width bounds
-- ---------------------------------------------------------------------------

/-- One wheel step keeps the clamped width inside the zoom bounds and does
not touch the initial dimensions. -/
theorem onWheel_step (ev : WheelInput) (s : AppState)
    (h1 : s.initialW / 10 ≤ s.viewBox.w) (h2 : s.viewBox.w ≤ s.initialW * 10) :
    (onWheel ev s).initialW = s.initialW
      ∧ s.initialW / 10 ≤ (onWheel ev s).viewBox.w
      ∧ (onWheel ev s).viewBox.w ≤ s.initialW * 10 := by
  have hminmax : s.initialW / 10 ≤ s.initialW * 10 := le_trans h1 h2
  refine ⟨rfl, ?_, ?_⟩
  · show s.initialW / 10
      ≤ max (s.initialW / 10) (min (s.initialW * 10)
          (s.viewBox.w * if ev.deltaYPos then 11/10 else 9/10))
    exact le_max_left _ _
  · show max (s.initialW / 10) (min (s.initialW * 10)
          (s.viewBox.w * if ev.deltaYPos then 11/10 else 9/10))
      ≤ s.initialW * 10
    exact max_le hminmax (min_le_left _ _)

/-- Claim C8: starting from any viewbox whose width lies within
`[initialWidth/10, initialWidth*10]`, after every sequence of wheel-zoom
events the viewbox width remains within those bounds. -/
theorem C8_wheel_zoom_bounds (evs : List WheelInput) (s : AppState)
    (h1 : s.initialW / 10 ≤ s.viewBox.w) (h2 : s.viewBox.w ≤ s.initialW * 10) :
    s.initialW / 10 ≤ (runWheel evs s).viewBox.w
      ∧ (runWheel evs s).viewBox.w ≤ s.initialW * 10 := by
  induction evs generalizing s with
  | nil => exact ⟨h1, h2⟩
  | cons ev evs ih =>
    obtain ⟨hinit, hb1, hb2⟩ := onWheel_step ev s h1 h2
    have hrec := ih (onWheel ev s) (by rw [hinit]; exact hb1) (by rw [hinit]; exact hb2)
    rw [hinit] at hrec
    exact hrec

/-- Witness for C8: one wheel-out step on `state0` keeps the width within
`[80, 8000]`. -/
theorem C8_wheel_zoom_bounds_witness :
    state0.initialW / 10 ≤ state0.viewBox.w
      ∧ state0.viewBox.w ≤ state0.initialW * 10
      ∧ state0.initialW / 10 ≤ (runWheel [wheelOut] state0).viewBox.w
      ∧ (runWheel [wheelOut] state0).viewBox.w ≤ state0.initialW * 10 := by
  have h := C8_wheel_zoom_bounds [wheelOut] state0
    (by norm_num [state0]) (by norm_num [state0])
  exact ⟨by norm_num [state0], by norm_num [state0], h.1, h.2⟩

-- ---------------------------------------------------------------------------
-- C1: the gesture checkpoint is pushed after, not before, the mutation
-- ---------------------------------------------------------------------------

/-- Explicit evaluation of the concrete drag gesture on `state0`. -/
theorem dragResult_eq :
    dragResult = { state0 with layers := [layerA5], undoStack := [[layerA5]] } := by
  show (onMouseUpDrag (onMouseMoveDrag rect0 5 0
      (onMouseDownDrag rect0 0 0 "a" (engineIdle, state0)))).2 = _
  norm_num [onMouseDownDrag, onMouseMoveDrag, onMouseUpDrag, clientToSvg,
    getViewBox, getLayers, selectLayer, updateLayer, applyToFirst, pushUndo,
    state0, layerA, layerA5, rect0, engineIdle]

/-- Claim C1 is violated by the code: `_onMouseUp` (and `_onTouchEnd`) call
`pushUndo()` at gesture end, after the drag has mutated the layer list, so
the snapshot on top of the undo stack after the gesture is the
post-gesture layer list — not the pre-gesture one — and a subsequent
`undo()` leaves the layer list at its post-gesture value instead of
restoring the pre-gesture state.  Concretely: the gesture moves layer
`"a"` from x = 0 to x = 5, the top undo snapshot holds x = 5, and
`undo()` keeps x = 5. -/
theorem C1_checkpoint_pushed_after_mutation :
    dragResult.undoStack.head? = some dragResult.layers
      ∧ dragResult.layers ≠ state0.layers
      ∧ (undo dragResult).layers = dragResult.layers
      ∧ (undo dragResult).layers ≠ state0.layers := by
  have hne : ([layerA5] : List Layer) ≠ [layerA] := by
    intro h
    have h2 : layerA5 = layerA := by simpa using h
    have hx : layerA5.x = layerA.x := congrArg Layer.x h2
    norm_num [layerA5, layerA] at hx
  rw [dragResult_eq]
  exact ⟨rfl, hne, rfl, hne⟩

-- ---------------------------------------------------------------------------
-- C3: garbage collection of stored images
-- ---------------------------------------------------------------------------

/-- `contains` on string lists is membership. -/
theorem strContains_iff (l : List String) (a : String) :
    l.contains a = true ↔ a ∈ l := by
  simp [List.contains_iff_exists_mem_beq, beq_iff_eq]

/-- Key membership after a `mapDelete`. -/
theorem mem_mapKeys_mapDelete (m : List (String × String)) (k id : String) :
    id ∈ mapKeys (mapDelete m k) ↔ id ∈ mapKeys m ∧ id ≠ k := by
  simp only [mapKeys, mapDelete, List.mem_map, List.mem_filter,
    decide_eq_true_eq]
  constructor
  · rintro ⟨p, ⟨hpm, hpk⟩, rfl⟩
    exact ⟨⟨p, hpm, rfl⟩, hpk⟩
  · rintro ⟨⟨p, hpm, rfl⟩, hne⟩
    exact ⟨p, ⟨hpm, hne⟩, rfl⟩

/-- Key membership after the deletion loop of `collectGarbageImages`: a key
survives iff it was stored and is either referenced or was not visited. -/
theorem foldDelete_mem (referenced ks : List String) (t : AppState) (id : String) :
    (id ∈ mapKeys
        (ks.foldl (fun u k =>
          if referenced.contains k then u else deleteImage k u) t).imageDB)
      ↔ (id ∈ mapKeys t.imageDB ∧ (id ∈ referenced ∨ id ∉ ks)) := by
  induction ks generalizing t with
  | nil => simp
  | cons k ks ih =>
    rw [List.foldl_cons]
    by_cases hk : referenced.contains k = true
    · rw [if_pos hk, ih]
      have hkref : k ∈ referenced := (strContains_iff _ _).mp hk
      constructor
      · rintro ⟨hm, href | hks⟩
        · exact ⟨hm, Or.inl href⟩
        · by_cases hid : id = k
          · exact ⟨hm, Or.inl (hid ▸ hkref)⟩
          · exact ⟨hm, Or.inr (by simp [hid, hks])⟩
      · rintro ⟨hm, href | hks⟩
        · exact ⟨hm, Or.inl href⟩
        · exact ⟨hm, Or.inr (fun hmem => hks (List.mem_cons_of_mem _ hmem))⟩
    · rw [if_neg hk, ih]
      have hkref : k ∉ referenced := fun hmem => hk ((strContains_iff _ _).mpr hmem)
      have hdel : (deleteImage k t).imageDB = mapDelete t.imageDB k := rfl
      rw [hdel, mem_mapKeys_mapDelete]
      constructor
      · rintro ⟨⟨hm, hne⟩, href | hks⟩
        · exact ⟨hm, Or.inl href⟩
        · exact ⟨hm, Or.inr (by simp [hne, hks])⟩
      · rintro ⟨hm, href | hks⟩
        · have hne : id ≠ k := fun h => hkref (h ▸ href)
          exact ⟨⟨hm, hne⟩, Or.inl href⟩
        · have hne : id ≠ k := fun h => hks (h ▸ List.mem_cons_self k ks)
          exact ⟨⟨hm, hne⟩, Or.inr (fun hmem => hks (List.mem_cons_of_mem _ hmem))⟩

/-- The id list the code gathers matches the spec's referenced set exactly
on the non-empty ids (the truthiness guard drops the empty string). -/
theorem mem_referencedIds (s : AppState) (id : String) :
    id ∈ referencedIds s ↔ (id ≠ "" ∧ specReferenced s id) := by
  unfold referencedIds specReferenced
  simp only [List.mem_filterMap, List.mem_append, List.mem_flatten]
  constructor
  · rintro ⟨l, hmem, hguard⟩
    by_cases h : l.imageId = ""
    · simp [h] at hguard
    · rw [if_pos h] at hguard
      obtain rfl : l.imageId = id := by simpa using hguard
      refine ⟨h, ?_⟩
      rcases hmem with (hl | hu) | hr
      · exact Or.inl ⟨l, hl, rfl⟩
      · obtain ⟨snap, hsnap, hls⟩ := hu
        exact Or.inr (Or.inl ⟨snap, hsnap, l, hls, rfl⟩)
      · obtain ⟨snap, hsnap, hls⟩ := hr
        exact Or.inr (Or.inr ⟨snap, hsnap, l, hls, rfl⟩)
  · rintro ⟨hne, hl | hu | hr⟩
    · obtain ⟨l, hmem, hid⟩ := hl
      exact ⟨l, Or.inl (Or.inl hmem), by rw [if_pos (hid ▸ hne), hid]⟩
    · obtain ⟨snap, hsnap, l, hls, hid⟩ := hu
      exact ⟨l, Or.inl (Or.inr ⟨snap, hsnap, hls⟩), by rw [if_pos (hid ▸ hne), hid]⟩
    · obtain ⟨snap, hsnap, l, hls, hid⟩ := hr
      exact ⟨l, Or.inr ⟨snap, hsnap, hls⟩, by rw [if_pos (hid ▸ hne), hid]⟩

/-- Closed counterexample to C3 as stated (the claim quantifies over every
state): the stored id `""` is referenced by a current layer yet deleted. -/
theorem C3_collect_counterexample :
    (∃ l ∈ stateGC.layers, l.imageId = "")
      ∧ "" ∈ mapKeys stateGC.imageDB
      ∧ "" ∉ mapKeys (collectGarbageImages stateGC).imageDB := by
  refine ⟨⟨layerEmptyImg, by decide, rfl⟩, by decide, ?_⟩
  have h : mapKeys (collectGarbageImages stateGC).imageDB = [] := rfl
  rw [h]
  simp

/-- Claim C3, amended: `collectGarbageImages()` keeps exactly the stored
ids that are non-empty and referenced by a current layer or by a layer of
an undo or redo snapshot; a stored id equal to the empty string is
deleted even when a layer carries it, because the truthiness guard
`if (layer.imageId)` skips it.  For every other id the claim holds as
written: referenced stored ids are never deleted, unreferenced stored ids
always are. -/
theorem C3_collect_keeps_exactly_referenced (s : AppState) (id : String)
    (hstored : id ∈ mapKeys (getAllImages s)) :
    (id ∈ mapKeys (collectGarbageImages s).imageDB
      ↔ (id ≠ "" ∧ specReferenced s id)) := by
  unfold collectGarbageImages
  rw [foldDelete_mem, ← mem_referencedIds]
  constructor
  · rintro ⟨_, href | hks⟩
    · exact href
    · exact absurd hstored hks
  · intro h
    exact ⟨hstored, Or.inl h⟩

/-- Witness for the amended C3 at `stateDB`: the referenced stored id
`"img1"` survives collection and the orphan `"img2"` is deleted. -/
theorem C3_collect_keeps_exactly_referenced_witness :
    ("img1" ∈ mapKeys (getAllImages stateDB)
        ∧ ("img1" ∈ mapKeys (collectGarbageImages stateDB).imageDB
          ↔ ("img1" ≠ "" ∧ specReferenced stateDB "img1")))
      ∧ ("img2" ∈ mapKeys (getAllImages stateDB)
        ∧ ("img2" ∈ mapKeys (collectGarbageImages stateDB).imageDB
          ↔ ("img2" ≠ "" ∧ specReferenced stateDB "img2"))) :=
  ⟨⟨by decide, C3_collect_keeps_exactly_referenced stateDB "img1" (by decide)⟩,
   ⟨by decide, C3_collect_keeps_exactly_referenced stateDB "img2" (by decide)⟩⟩

-- ---------------------------------------------------------------------------
-- C5: read accessors and object sharing
-- ---------------------------------------------------------------------------

/-- Counterexample to C5 as stated: `getSelectedLayer()` returns the live
layer object, so assigning a field through it changes the store's layer
list as observed by a subsequent read — the accessor does not return a
defensive copy. -/
theorem C5_counterexample :
    Ref.getSelectedLayer refState0 = some 0
      ∧ Ref.observedLayers (Ref.writeThrough 0 (fun l => { l with x := 5 }) refState0)
          ≠ Ref.observedLayers refState0 := by
  decide

/-- Claim C5, amended: `getLayers()` returns a fresh array (array-level
mutation of the returned value cannot alter the store) but it shares the
layer objects, and `getSelectedLayer()` returns the live layer object
itself; mutating a field through the object returned by
`getSelectedLayer` mutates the store — every position of the observed
layer list holding that reference reads the updated object on the next
access, while the address array itself is unchanged. -/
theorem C5_accessors_share_objects (s : Ref.RefState) (a : ℕ) (f : Layer → Layer)
    (hsel : Ref.getSelectedLayer s = some a) (ha : a < s.heap.length) :
    Ref.getLayers (Ref.writeThrough a f s) = Ref.getLayers s
      ∧ Ref.observedLayers (Ref.writeThrough a f s)
          = s.addrs.map (fun b =>
              if b = a then f (Ref.readLayer s a) else Ref.readLayer s b) := by
  refine ⟨rfl, ?_⟩
  unfold Ref.observedLayers
  show (Ref.writeThrough a f s).addrs.map _ = _
  apply List.map_congr_left
  intro b _
  by_cases hba : b = a
  · subst hba
    simp [Ref.readLayer, Ref.writeThrough, List.getD_eq_getElem?_getD,
      List.getElem?_set_self ha]
  · simp [Ref.readLayer, Ref.writeThrough, List.getD_eq_getElem?_getD,
      List.getElem?_set_ne (fun h => hba h.symm), hba]

/-- Witness for the amended C5 at `refState0`. -/
theorem C5_accessors_share_objects_witness :
    Ref.getSelectedLayer refState0 = some 0
      ∧ (0 : ℕ) < refState0.heap.length
      ∧ (Ref.getLayers (Ref.writeThrough 0 (fun l => { l with x := 5 }) refState0)
            = Ref.getLayers refState0
        ∧ Ref.observedLayers (Ref.writeThrough 0 (fun l => { l with x := 5 }) refState0)
            = refState0.addrs.map (fun b =>
                if b = 0
                then (fun l => { l with x := 5 }) (Ref.readLayer refState0 0)
                else Ref.readLayer refState0 b)) :=
  ⟨by decide, by decide,
   C5_accessors_share_objects refState0 0 (fun l => { l with x := 5 })
     (by decide) (by decide)⟩

end Pasty
